import Mathlib

/-!
Verification of the LocalFlow audio backend
(`src/backend/engine/vad.py` and `src/backend/engine/audio.py`)
through a shallow embedding in Lean.

Audio samples are modelled as rationals (the source works on float32
samples; only addition, absolute value and averaging are performed on
them, so `ℚ` is a faithful exact model). The ONNX inference session of
the Silero VAD is external to the repository: it is modelled as an
abstract classifier `VadModel` taking a hidden state and a 512-sample
frame to either a speech probability plus a successor state, or an
inference failure. All control flow around it (padding, state reset,
chunking, fail-open, boundary arithmetic) is translated from the source.
-/

namespace LocalFlow

/-- `SileroVAD.CHUNK_SIZE` (vad.py line 17): 32 ms at 16 kHz. -/
def CHUNK_SIZE : ℕ := 512

/-- `SileroVAD.SAMPLE_RATE` (vad.py line 16). -/
def VAD_SAMPLE_RATE : ℕ := 16000

/-- Abstract model of the external ONNX inference session
(`self.session.run` in `is_speech`, vad.py line 142): given the hidden
state and a 512-sample frame it returns the speech probability and the
successor hidden state, or fails (`except` branch, line 158). The Silero
model always returns the pair `[output, stateN]`. -/
structure VadModel (σ : Type) where
  run : σ → List ℚ → Except Unit (ℚ × σ)

/-- State of a `SileroVAD` object (vad.py lines 19-31): an optional
inference session, the optional streaming hidden state, and the zero
state that `_reset_states` installs (`np.zeros((2, 1, 128))`,
line 99, abstracted to a designated element of the state type). -/
structure SileroVAD (σ : Type) where
  zeroState : σ
  session : Option (VadModel σ)
  state : Option σ

namespace SileroVAD

variable {σ : Type}

/-- `SileroVAD._reset_states` (vad.py lines 91-99): returns early when
no session is loaded, otherwise installs the zero hidden state. -/
def reset_states (v : SileroVAD σ) : SileroVAD σ :=
  match v.session with
  | none => v
  | some _ => { v with state := some v.zeroState }

/-- `SileroVAD.reset` (vad.py lines 187-189). -/
def reset (v : SileroVAD σ) : SileroVAD σ :=
  v.reset_states

/-- The pad-or-truncate step of `is_speech` (vad.py lines 114-119):
frames shorter than 512 samples are right-padded with zeros, longer
frames are truncated to 512 samples. -/
def padTrunc (chunk : List ℚ) : List ℚ :=
  if chunk.length ≠ CHUNK_SIZE then
    if chunk.length < CHUNK_SIZE then
      chunk ++ List.replicate (CHUNK_SIZE - chunk.length) 0
    else chunk.take CHUNK_SIZE
  else chunk

/-- The `if self._state is None: self._reset_states()` step of
`is_speech` (vad.py lines 127-128). -/
def ensure_state (v : SileroVAD σ) : SileroVAD σ :=
  match v.state with
  | none => v.reset_states
  | some _ => v

/-- `SileroVAD.is_speech` (vad.py lines 101-161). Raises a
`RuntimeError` when no model is loaded (line 111); otherwise pads or
truncates the frame, runs inference, updates the hidden state and
thresholds the speech probability at 0.5 (line 154); an inference
failure is caught and reported as speech (fail open, lines 158-161),
leaving the hidden state unchanged. -/
def is_speech (v : SileroVAD σ) (audio_chunk : List ℚ) :
    Except String (Bool × SileroVAD σ) :=
  match v.session with
  | none => .error "VAD model not loaded. Call load_vad_model() first."
  | some m =>
    let c := padTrunc audio_chunk
    let v1 := v.ensure_state
    match m.run (v1.state.getD v1.zeroState) c with
    | .error _ => .ok (true, v1)
    | .ok (speech_prob, s1) =>
      .ok (decide ((1 : ℚ) / 2 < speech_prob), { v1 with state := some s1 })

/-- The slicing loop of `process_stream` (vad.py line 176-177):
`audio_stream[i : i + CHUNK_SIZE]` for `i = 0, 512, 1024, ...`. Every
produced chunk is non-empty and at most 512 samples long. -/
def chunks512 (l : List ℚ) : List (List ℚ) :=
  if l = [] then []
  else l.take CHUNK_SIZE :: chunks512 (l.drop CHUNK_SIZE)
termination_by l.length
decreasing_by
  rename_i h
  have hl : 0 < l.length := List.length_pos.mpr h
  simp only [List.length_drop, CHUNK_SIZE]
  omega

/-- The body of the chunk loop of `process_stream` (vad.py lines
176-183), threading the mutable `self` through the successive
`is_speech` calls: full frames are classified as they are, a final
partial frame is zero-padded first, empty slices are skipped (the
slicing never produces one). -/
def process_chunks (v : SileroVAD σ) : List (List ℚ) →
    Except String (List Bool × SileroVAD σ)
  | [] => .ok ([], v)
  | chunk :: rest =>
    if chunk.length = 0 then process_chunks v rest
    else
      let c :=
        if chunk.length = CHUNK_SIZE then chunk
        else chunk ++ List.replicate (CHUNK_SIZE - chunk.length) 0
      match v.is_speech c with
      | .error e => .error e
      | .ok (b, v1) =>
        match process_chunks v1 rest with
        | .error e => .error e
        | .ok (bs, v2) => .ok (b :: bs, v2)

/-- `SileroVAD.process_stream` (vad.py lines 163-185): resets the
hidden state once, then classifies every consecutive non-overlapping
512-sample frame, padding only the final partial one. -/
def process_stream (v : SileroVAD σ) (audio_stream : List ℚ) :
    Except String (List Bool × SileroVAD σ) :=
  process_chunks v.reset_states (chunks512 audio_stream)

/-- The first/last-speech-index scan of `find_speech_boundaries`
(vad.py lines 218-226): `first` is set at the first `True`, `last` is
updated at every `True`; both are `None` iff no frame is speech. -/
def first_last_scan : ℕ → Option (ℕ × ℕ) → List Bool → Option (ℕ × ℕ)
  | _, acc, [] => acc
  | i, acc, b :: bs =>
    first_last_scan (i + 1)
      (if b then some ((Option.map Prod.fst acc).getD i, i) else acc) bs

/-- `SileroVAD.find_speech_boundaries` (vad.py lines 191-248).
The padding conversion `int((padding_ms / 1000.0) * 16000)` is exactly
`padding_ms * 16` for the natural-number millisecond arguments used. -/
def find_speech_boundaries (v : SileroVAD σ) (audio_stream : List ℚ)
    (padding_ms : ℕ) : Except String (ℤ × ℤ) :=
  match v.session with
  | none => .ok (0, audio_stream.length)
  | some _ =>
    if audio_stream.length = 0 then .ok (0, 0)
    else
      match v.process_stream audio_stream with
      | .error e => .error e
      | .ok (speech_results, _) =>
        if speech_results.isEmpty then .ok (0, audio_stream.length)
        else
          match first_last_scan 0 none speech_results with
          | none => .ok (0, audio_stream.length)
          | some (first_speech_idx, last_speech_idx) =>
            let first_sample : ℤ := first_speech_idx * CHUNK_SIZE
            let last_sample : ℤ := (last_speech_idx + 1) * CHUNK_SIZE
            let padding_samples : ℤ := padding_ms * 16
            .ok (max 0 (first_sample - padding_samples),
                 min (audio_stream.length : ℤ) (last_sample + padding_samples))

end SileroVAD

/-! ## AudioRecorder (`src/backend/engine/audio.py`)

The sounddevice streams are external: device lookup and stream start are
modelled by an `AudioEnv`. The per-block stream callbacks, the body of
one iteration of the mixing thread's loop, and `start_recording` /
`stop_recording` are translated from the source. The `deque` with
`maxlen=200` holding the waveform points is modelled by `dequePush`. -/

/-- `AudioRecorder.BUFFER_SIZE` (audio.py line 18). -/
def BUFFER_SIZE : ℕ := 1024

/-- The `maxlen` of `waveform_buffer` (audio.py line 29). -/
def WAVEFORM_MAXLEN : ℕ := 200

/-- Append on a `collections.deque` with a maximum length: the new
element goes to the right and elements are evicted from the left until
the length is at most `maxlen`. -/
def dequePush (maxlen : ℕ) (l : List ℚ) (x : ℚ) : List ℚ :=
  (l ++ [x]).drop (l.length + 1 - maxlen)

/-- `np.abs(data).mean()`: the mean absolute amplitude of a block
(audio.py lines 178 and 223). -/
def meanAbs (l : List ℚ) : ℚ :=
  (l.map (fun x => |x|)).sum / (l.length : ℚ)

/-- The mutable state of an `AudioRecorder` (audio.py lines 20-34),
with `buffer_size` standing for the class constant `BUFFER_SIZE`
(1024 in the source) so the mixing step can be stated for any chunk
size, and the two stream fields abstracted to open/closed flags. -/
structure AudioRecorder where
  audio_buffer : List ℚ
  mic_buffer : List ℚ
  system_buffer : List ℚ
  waveform_buffer : List ℚ
  is_recording : Bool
  mix_audio : Bool
  buffer_size : ℕ
  micStreamOpen : Bool
  systemStreamOpen : Bool
deriving DecidableEq, Repr

/-- A fresh `AudioRecorder` (audio.py `__init__`, lines 20-34). -/
def AudioRecorder.init : AudioRecorder :=
  { audio_buffer := [], mic_buffer := [], system_buffer := [],
    waveform_buffer := [], is_recording := false, mix_audio := true,
    buffer_size := BUFFER_SIZE, micStreamOpen := false,
    systemStreamOpen := false }

/-- The external sounddevice world seen by `start_recording`: whether
`sd.query_devices(i)` succeeds, the default input device, and whether
opening and starting an `InputStream` on a device succeeds. -/
structure AudioEnv where
  deviceAvailable : ℕ → Bool
  defaultInput : Option ℕ
  streamStartOk : ℕ → Bool

namespace AudioRecorder

/-- `mic_callback` (audio.py lines 159-185) for one delivered mono
block: when a system stream is active and mixing is on, the block is
queued for the mixing thread; otherwise it goes directly to the
combined buffer and its mean absolute amplitude is pushed to the
waveform window. -/
def mic_callback (st : AudioRecorder) (data : List ℚ) : AudioRecorder :=
  if st.systemStreamOpen ∧ st.mix_audio then
    { st with mic_buffer := st.mic_buffer ++ data }
  else
    { st with audio_buffer := st.audio_buffer ++ data,
              waveform_buffer :=
                dequePush WAVEFORM_MAXLEN st.waveform_buffer (meanAbs data) }

/-- `system_callback` (audio.py lines 187-200) for one delivered mono
block. -/
def system_callback (st : AudioRecorder) (data : List ℚ) : AudioRecorder :=
  { st with system_buffer := st.system_buffer ++ data }

/-- One iteration of the loop body of `mix_audio_thread` (audio.py
lines 202-239): while recording, whenever both source queues hold at
least `buffer_size` samples, pop that many from each, sum them
element-wise, append the mixed chunk to the combined buffer and push
its mean absolute amplitude to the waveform window; otherwise do
nothing (the thread just sleeps). -/
def mix_audio_thread_step (st : AudioRecorder) : AudioRecorder :=
  if st.is_recording ∧ st.buffer_size ≤ st.mic_buffer.length ∧
      st.buffer_size ≤ st.system_buffer.length then
    let mic_chunk := st.mic_buffer.take st.buffer_size
    let system_chunk := st.system_buffer.take st.buffer_size
    let mixed := List.zipWith (fun a b => a + b) mic_chunk system_chunk
    { st with
      mic_buffer := st.mic_buffer.drop st.buffer_size,
      system_buffer := st.system_buffer.drop st.buffer_size,
      audio_buffer := st.audio_buffer ++ mixed,
      waveform_buffer :=
        dequePush WAVEFORM_MAXLEN st.waveform_buffer (meanAbs mixed) }
  else st

/-- The buffer-clearing step of `start_recording` (audio.py lines
123-128), performed before any device is touched. -/
def clear_for_start (st : AudioRecorder) (mix : Bool) : AudioRecorder :=
  { st with audio_buffer := [], mic_buffer := [], system_buffer := [],
            waveform_buffer := [], mix_audio := mix }

/-- `start_recording` (audio.py lines 103-295). A second start while
recording is ignored (lines 118-120). A missing microphone (no device
given and no default, or the given device unavailable) raises. An
unavailable system/loopback device is logged and dropped, falling back
to microphone-only capture (lines 150-157). A stream that fails to
start raises after cleanup (lines 278-295). -/
def start_recording (env : AudioEnv) (st : AudioRecorder)
    (microphone_device system_audio_device : Option ℕ) (mix_audio : Bool) :
    Except String AudioRecorder :=
  if st.is_recording then .ok st
  else
    match microphone_device.orElse (fun _ => env.defaultInput) with
    | none => .error "No microphone device available"
    | some mic =>
      if ¬ env.deviceAvailable mic then
        .error "Microphone device not available"
      else
        match system_audio_device with
        | some sys =>
          if env.deviceAvailable sys then
            if ¬ env.streamStartOk mic then
              .error "Error starting audio stream"
            else if ¬ env.streamStartOk sys then
              .error "Error starting audio stream"
            else
              .ok { clear_for_start st mix_audio with
                    micStreamOpen := true, systemStreamOpen := true,
                    is_recording := true }
          else
            if ¬ env.streamStartOk mic then
              .error "Error starting audio stream"
            else
              .ok { clear_for_start st mix_audio with
                    micStreamOpen := true, is_recording := true }
        | none =>
          if ¬ env.streamStartOk mic then
            .error "Error starting audio stream"
          else
            .ok { clear_for_start st mix_audio with
                  micStreamOpen := true, is_recording := true }

/-- `stop_recording` (audio.py lines 297-377): a no-op returning an
empty buffer when not recording; otherwise stops the streams, performs
the residual flush (mix the common prefix of both queues, then append
any remaining microphone-only samples), returns the combined buffer and
clears all buffers. -/
def stop_recording (st : AudioRecorder) : List ℚ × AudioRecorder :=
  if ¬ st.is_recording then ([], st)
  else
    let st1 := { st with is_recording := false, micStreamOpen := false,
                         systemStreamOpen := false }
    let flushed : AudioRecorder :=
      if st1.mix_audio ∧ 0 < st1.mic_buffer.length ∧
          0 < st1.system_buffer.length then
        let min_len := min st1.mic_buffer.length st1.system_buffer.length
        let mic_remaining := st1.mic_buffer.take min_len
        let system_remaining := st1.system_buffer.take min_len
        let mixed_remaining :=
          List.zipWith (fun a b => a + b) mic_remaining system_remaining
        { st1 with audio_buffer := st1.audio_buffer ++ mixed_remaining,
                   mic_buffer := st1.mic_buffer.drop min_len,
                   system_buffer := st1.system_buffer.drop min_len }
      else st1
    let audio_data :=
      if flushed.mix_audio ∧ 0 < flushed.mic_buffer.length then
        flushed.audio_buffer ++ flushed.mic_buffer
      else flushed.audio_buffer
    (audio_data,
     { flushed with audio_buffer := [], mic_buffer := [],
                    system_buffer := [], waveform_buffer := [] })

end AudioRecorder

/-- An externally observable event acting on an `AudioRecorder`: a
block delivered by an open stream's callback, one iteration of the
mixing thread, or a `start_recording` / `stop_recording` call (on a
failed start the cleanup path leaves the cleared buffers and closed
streams behind, audio.py lines 278-295). -/
inductive RecorderOp where
  | micData (data : List ℚ)
  | systemData (data : List ℚ)
  | mixStep
  | start (env : AudioEnv) (microphone_device system_audio_device : Option ℕ)
      (mix_audio : Bool)
  | stop

/-- Apply one event to the recorder state. Callbacks only fire while
their stream is open. -/
def applyOp (st : AudioRecorder) : RecorderOp → AudioRecorder
  | .micData d => if st.micStreamOpen then st.mic_callback d else st
  | .systemData d => if st.systemStreamOpen then st.system_callback d else st
  | .mixStep => st.mix_audio_thread_step
  | .start env mic sys mix =>
    match AudioRecorder.start_recording env st mic sys mix with
    | .ok st1 => st1
    | .error _ =>
      { AudioRecorder.clear_for_start st mix with
        micStreamOpen := false, systemStreamOpen := false }
  | .stop => (st.stop_recording).2

/-- The recorder state after a sequence of events, starting from a
fresh recorder. -/
def runOps (ops : List RecorderOp) : AudioRecorder :=
  ops.foldl applyOp AudioRecorder.init

/-! ## Helper lemmas -/

lemma zipWith_take_min (f : ℚ → ℚ → ℚ) (l l' : List ℚ) :
    List.zipWith f (l.take (min l.length l'.length))
      (l'.take (min l.length l'.length)) = List.zipWith f l l' := by
  rw [← List.take_zipWith]
  exact List.take_of_length_le (by simp)

lemma zipWith_take_left (f : ℚ → ℚ → ℚ) (l l' : List ℚ) :
    List.zipWith f (l.take l'.length) l' = List.zipWith f l l' :=
  calc List.zipWith f (l.take l'.length) l'
      = List.zipWith f (l.take l'.length) (l'.take l'.length) := by
        rw [List.take_length]
    _ = (List.zipWith f l l').take l'.length := (List.take_zipWith).symm
    _ = List.zipWith f l l' := List.take_of_length_le (by simp)

lemma dequePush_length (n : ℕ) (l : List ℚ) (x : ℚ) :
    (dequePush n l x).length = min (l.length + 1) n := by
  simp [dequePush]
  omega

namespace SileroVAD

variable {σ : Type}

lemma reset_states_session (v : SileroVAD σ) :
    v.reset_states.session = v.session := by
  rcases v with ⟨z, s, st⟩
  cases s <;> rfl

lemma reset_states_zeroState (v : SileroVAD σ) :
    v.reset_states.zeroState = v.zeroState := by
  rcases v with ⟨z, s, st⟩
  cases s <;> rfl

lemma ensure_state_session (v : SileroVAD σ) :
    v.ensure_state.session = v.session := by
  unfold ensure_state
  cases hst : v.state
  · simp only [hst]
    exact reset_states_session v
  · simp only [hst]

lemma is_speech_ok (v : SileroVAD σ) (m : VadModel σ) (c : List ℚ)
    (h : v.session = some m) :
    ∃ b v1, v.is_speech c = .ok (b, v1) ∧ v1.session = some m := by
  rcases hr : m.run (v.ensure_state.state.getD v.ensure_state.zeroState)
      (padTrunc c) with e | ⟨prob, s1⟩
  · refine ⟨true, v.ensure_state, ?_, ?_⟩
    · simp [is_speech, h, hr]
    · rw [ensure_state_session]; exact h
  · refine ⟨decide ((1 : ℚ) / 2 < prob),
      { v.ensure_state with state := some s1 }, ?_, ?_⟩
    · simp [is_speech, h, hr]
    · simp [ensure_state_session, h]

lemma process_chunks_ok (m : VadModel σ) :
    ∀ (cs : List (List ℚ)) (v : SileroVAD σ), v.session = some m →
      ∃ r v1, process_chunks v cs = .ok (r, v1) ∧ v1.session = some m := by
  intro cs
  induction cs with
  | nil => exact fun v h => ⟨[], v, rfl, h⟩
  | cons c rest ih =>
    intro v h
    by_cases hc : c.length = 0
    · obtain ⟨r, v1, hr, hs⟩ := ih v h
      exact ⟨r, v1, by simp [process_chunks, hc, hr], hs⟩
    · obtain ⟨b, v1, hb, hs1⟩ := is_speech_ok v m
        (if c.length = CHUNK_SIZE then c
         else c ++ List.replicate (CHUNK_SIZE - c.length) 0) h
      obtain ⟨r, v2, hr, hs2⟩ := ih v1 hs1
      exact ⟨b :: r, v2, by simp [process_chunks, hc, hb, hr], hs2⟩

lemma process_chunks_length :
    ∀ (cs : List (List ℚ)) (v : SileroVAD σ) (r : List Bool)
      (v1 : SileroVAD σ), (∀ c ∈ cs, c ≠ []) →
      process_chunks v cs = .ok (r, v1) → r.length = cs.length := by
  intro cs
  induction cs with
  | nil =>
    intro v r v1 _ h
    simp only [process_chunks, Except.ok.injEq, Prod.mk.injEq] at h
    simp [← h.1]
  | cons c rest ih =>
    intro v r v1 hne h
    have hc : ¬ c.length = 0 := by
      simpa [List.length_eq_zero] using hne c (by simp)
    rcases hb : v.is_speech (if c.length = CHUNK_SIZE then c
        else c ++ List.replicate (CHUNK_SIZE - c.length) 0) with e | ⟨b, v2⟩
    · have heq : process_chunks v (c :: rest) = .error e := by
        simp [process_chunks, hc, hb]
      rw [heq] at h
      exact absurd h (by simp)
    · rcases hr : process_chunks v2 rest with e | ⟨bs, v3⟩
      · have heq : process_chunks v (c :: rest) = .error e := by
          simp [process_chunks, hc, hb, hr]
        rw [heq] at h
        exact absurd h (by simp)
      · have heq : process_chunks v (c :: rest) = .ok (b :: bs, v3) := by
          simp [process_chunks, hc, hb, hr]
        rw [heq] at h
        simp only [Except.ok.injEq, Prod.mk.injEq] at h
        have := ih v2 bs v3 (fun x hx => hne x (by simp [hx])) hr
        simp [← h.1, this]

lemma chunks512_ne_nil :
    ∀ (n : ℕ) (l : List ℚ), l.length ≤ n → ∀ c ∈ chunks512 l, c ≠ [] := by
  intro n
  induction n with
  | zero =>
    intro l hl c hc
    have : l = [] := by
      cases l
      · rfl
      · simp at hl
    subst this
    rw [chunks512] at hc
    simp at hc
  | succ n ih =>
    intro l hl c hc
    by_cases h : l = []
    · subst h; rw [chunks512] at hc; simp at hc
    · rw [chunks512, if_neg h] at hc
      rcases List.mem_cons.mp hc with h1 | h1
      · subst h1
        have : 0 < l.length := List.length_pos.mpr h
        simp [← List.length_pos, CHUNK_SIZE]
        omega
      · refine ih (l.drop CHUNK_SIZE) ?_ c h1
        have : 0 < l.length := List.length_pos.mpr h
        simp only [List.length_drop, CHUNK_SIZE] at *
        omega

lemma chunks512_index_lt :
    ∀ (i : ℕ) (l : List ℚ), i < (chunks512 l).length →
      i * CHUNK_SIZE < l.length := by
  intro i
  induction i with
  | zero =>
    intro l h
    by_cases hl : l = []
    · subst hl; rw [chunks512] at h; simp at h
    · simpa [List.length_pos] using hl
  | succ i ih =>
    intro l h
    by_cases hl : l = []
    · subst hl; rw [chunks512] at h; simp at h
    · rw [chunks512, if_neg hl] at h
      simp only [List.length_cons, Nat.succ_lt_succ_iff] at h
      have := ih (l.drop CHUNK_SIZE) h
      simp only [List.length_drop, CHUNK_SIZE] at *
      omega

lemma first_last_scan_bounds :
    ∀ (bs : List Bool) (i : ℕ) (acc : Option (ℕ × ℕ)),
      (∀ f l, acc = some (f, l) → f ≤ l ∧ l < i) →
      ∀ f l, first_last_scan i acc bs = some (f, l) →
        f ≤ l ∧ l < i + bs.length := by
  intro bs
  induction bs with
  | nil =>
    intro i acc hacc f l h
    simpa using hacc f l h
  | cons b rest ih =>
    intro i acc hacc f l h
    rw [first_last_scan] at h
    have hstep : ∀ f0 l0,
        (if b then some ((Option.map Prod.fst acc).getD i, i) else acc) =
          some (f0, l0) → f0 ≤ l0 ∧ l0 < i + 1 := by
      intro f0 l0 h0
      by_cases hb : b = true
      · rw [if_pos hb] at h0
        simp only [Option.some.injEq, Prod.mk.injEq] at h0
        rcases hacc2 : acc with _ | ⟨fa, la⟩
        · subst hacc2
          simp at h0
          omega
        · have := hacc fa la hacc2
          subst hacc2
          simp at h0
          omega
      · rw [if_neg hb] at h0
        have := hacc f0 l0 h0
        omega
    have := ih (i + 1) _ hstep f l h
    simp only [List.length_cons] at *
    omega

lemma process_chunks_none :
    ∀ (cs : List (List ℚ)) (v : SileroVAD σ), v.session = none →
      process_chunks v cs =
        if cs.all (fun c => c.isEmpty) then .ok ([], v)
        else .error "VAD model not loaded. Call load_vad_model() first." := by
  intro cs
  induction cs with
  | nil => intro v _; simp [process_chunks]
  | cons c rest ih =>
    intro v h
    by_cases hc : c.length = 0
    · have hce : c.isEmpty = true := by
        cases c
        · rfl
        · simp at hc
      simp [process_chunks, hc, ih v h, hce]
    · have hce : c.isEmpty = false := by
        cases c
        · simp at hc
        · rfl
      have hsp : v.is_speech (if c.length = CHUNK_SIZE then c
          else c ++ List.replicate (CHUNK_SIZE - c.length) 0) =
          .error "VAD model not loaded. Call load_vad_model() first." := by
        simp [is_speech, h]
      simp [process_chunks, hc, hsp, hce]

lemma first_last_scan_all_false :
    ∀ (bs : List Bool) (i : ℕ) (acc : Option (ℕ × ℕ)),
      (∀ b ∈ bs, b = false) → first_last_scan i acc bs = acc := by
  intro bs
  induction bs with
  | nil => intro i acc _; rfl
  | cons b rest ih =>
    intro i acc hall
    rw [first_last_scan]
    have hb : b = false := hall b (by simp)
    rw [hb]
    simp only [Bool.false_eq_true, if_false]
    exact ih _ _ (fun x hx => hall x (by simp [hx]))

end SileroVAD

/-! ## Claims about the recorder -/

/-- C8: calling stop when the session is already Idle (including a
second stop with no intervening start) is a no-op that returns an empty
buffer and raises no error: `stop_recording` on a non-recording state
returns the empty buffer and leaves the state unchanged. -/
theorem stop_recording_idle_noop (st : AudioRecorder)
    (h : st.is_recording = false) :
    st.stop_recording = ([], st) := by
  unfold AudioRecorder.stop_recording
  rw [if_pos (by simp [h])]

/-- The recorder state right after a first stop of a recording
session. -/
def afterFirstStop : AudioRecorder :=
  (({ AudioRecorder.init with is_recording := true } : AudioRecorder).stop_recording).2

/-- Witness for C8 at a fresh recorder and at the state left by a
first stop of a recording session. -/
theorem stop_recording_idle_noop_witness :
    AudioRecorder.init.stop_recording = ([], AudioRecorder.init) ∧
    afterFirstStop.stop_recording = ([], afterFirstStop) := by
  constructor
  · exact stop_recording_idle_noop AudioRecorder.init rfl
  · exact stop_recording_idle_noop afterFirstStop rfl

/-- C5: whenever the session is recording (so the mixing thread, which
only exists when mixing was enabled, is looping) and both source queues
hold at least one chunk of `buffer_size` samples, one iteration of the
mixing loop pops `buffer_size` samples from each queue, sums them
element-wise, and appends the sum to the combined buffer. -/
theorem mix_audio_thread_step_mixes (st : AudioRecorder)
    (hrec : st.is_recording = true) (hmix : st.mix_audio = true)
    (hm : st.buffer_size ≤ st.mic_buffer.length)
    (hs : st.buffer_size ≤ st.system_buffer.length) :
    st.mix_audio_thread_step.audio_buffer =
      st.audio_buffer ++
        List.zipWith (fun a b => a + b) (st.mic_buffer.take st.buffer_size)
          (st.system_buffer.take st.buffer_size) ∧
    st.mix_audio_thread_step.mic_buffer =
      st.mic_buffer.drop st.buffer_size ∧
    st.mix_audio_thread_step.system_buffer =
      st.system_buffer.drop st.buffer_size := by
  unfold AudioRecorder.mix_audio_thread_step
  rw [if_pos (by exact ⟨hrec, hm, hs⟩)]
  exact ⟨rfl, rfl, rfl⟩

/-- The concrete mixing example of the claim: microphone samples
`[1,2,3,4]`, system samples `[10,20,30,40]`, chunk size 4, mixing
enabled. -/
def mixExample : AudioRecorder :=
  { AudioRecorder.init with is_recording := true, buffer_size := 4,
                            mic_buffer := [1, 2, 3, 4],
                            system_buffer := [10, 20, 30, 40] }

/-- Witness for C5: on the claim's concrete input the combined buffer
equals `[11, 22, 33, 44]`. -/
theorem mix_audio_thread_step_mixes_witness :
    mixExample.mix_audio_thread_step.audio_buffer = [11, 22, 33, 44] := by
  have h := mix_audio_thread_step_mixes mixExample rfl rfl
    (by simp [mixExample, AudioRecorder.init, BUFFER_SIZE])
    (by simp [mixExample, AudioRecorder.init, BUFFER_SIZE])
  rw [h.1]
  simp [mixExample, AudioRecorder.init, BUFFER_SIZE]
  norm_num

/-- The state reached by a successful microphone-only start: buffers
cleared, microphone stream open, recording on. -/
def afterMicOnlyStart (st : AudioRecorder) (mix : Bool) : AudioRecorder :=
  { AudioRecorder.clear_for_start st mix with
    micStreamOpen := true, is_recording := true }

/-- C2: starting with a requested system/loopback device that is
unavailable does not raise: the session degrades to microphone-only
capture (no system stream is opened) and recording still begins. -/
theorem start_recording_system_fallback (env : AudioEnv)
    (st : AudioRecorder) (mic sys : ℕ) (mix : Bool)
    (h0 : st.is_recording = false)
    (h1 : st.systemStreamOpen = false)
    (h2 : env.deviceAvailable mic = true)
    (h3 : env.streamStartOk mic = true)
    (h4 : env.deviceAvailable sys = false) :
    AudioRecorder.start_recording env st (some mic) (some sys) mix =
      .ok (afterMicOnlyStart st mix) ∧
    (afterMicOnlyStart st mix).is_recording = true ∧
    (afterMicOnlyStart st mix).systemStreamOpen = false := by
  refine ⟨?_, rfl, ?_⟩
  · unfold AudioRecorder.start_recording
    rw [if_neg (by simp [h0])]
    simp [Option.orElse, h2, h3, h4, afterMicOnlyStart]
  · show st.systemStreamOpen = false
    exact h1

/-- A concrete environment for the C2 witness: only device 0 exists. -/
def fallbackEnv : AudioEnv :=
  { deviceAvailable := fun d => d == 0, defaultInput := some 0,
    streamStartOk := fun _ => true }

/-- Witness for C2: requesting system device 5 (unavailable) next to
microphone device 0 starts a microphone-only session. -/
theorem start_recording_system_fallback_witness :
    AudioRecorder.start_recording fallbackEnv AudioRecorder.init
        (some 0) (some 5) true = .ok (afterMicOnlyStart AudioRecorder.init true) ∧
    (afterMicOnlyStart AudioRecorder.init true).is_recording = true ∧
    (afterMicOnlyStart AudioRecorder.init true).systemStreamOpen = false :=
  start_recording_system_fallback fallbackEnv AudioRecorder.init 0 5 true
    rfl rfl rfl rfl rfl

/-- The C1 counterexample state: recording with mixing enabled, one
unmixed microphone sample `[1]` and two unmixed system samples
`[10, 20]` queued. -/
def residualExample : AudioRecorder :=
  { AudioRecorder.init with is_recording := true,
                            mic_buffer := [1],
                            system_buffer := [10, 20] }

/-- C1 (counterexample): stopping `residualExample` appends the mixed
pair `[11]` but drops the leftover system-only sample `20`, so the
returned buffer is `[11]`, not the `[11, 20]` the claim requires when
the residual belongs only to the system source. -/
theorem stop_recording_drops_system_residual :
    (residualExample.stop_recording).1 = [11] ∧
    (residualExample.stop_recording).1 ≠ [11, 20] := by
  have h : (residualExample.stop_recording).1 = [11] := by
    simp [AudioRecorder.stop_recording, residualExample, AudioRecorder.init]
    norm_num
  refine ⟨h, ?_⟩
  rw [h]
  simp

/-- C1 (amended): on stop with mixing enabled, the residual flush
appends one mixed chunk pairing the two queues up to the shorter
queue's length, then any leftover microphone-only samples unmixed, in
that order; leftover system-only samples are discarded. -/
theorem stop_recording_residual_flush (st : AudioRecorder)
    (hrec : st.is_recording = true) (hmix : st.mix_audio = true) :
    (st.stop_recording).1 =
      st.audio_buffer ++
        List.zipWith (fun a b => a + b) st.mic_buffer st.system_buffer ++
        st.mic_buffer.drop st.system_buffer.length := by
  unfold AudioRecorder.stop_recording
  rw [if_neg (by simp [hrec])]
  by_cases hm : st.mic_buffer = []
  · simp [hm]
  · by_cases hs : st.system_buffer = []
    · simp [hs, hmix, List.length_pos.mpr hm]
    · have hm' : 0 < st.mic_buffer.length := List.length_pos.mpr hm
      have hs' : 0 < st.system_buffer.length := List.length_pos.mpr hs
      have hzip : List.zipWith (fun a b => a + b)
          (st.mic_buffer.take (min st.mic_buffer.length st.system_buffer.length))
          (st.system_buffer.take (min st.mic_buffer.length st.system_buffer.length)) =
          List.zipWith (fun a b => a + b) st.mic_buffer st.system_buffer :=
        zipWith_take_min _ _ _
      rcases Nat.lt_or_ge st.system_buffer.length st.mic_buffer.length with hlt | hge
      · have hmin : min st.mic_buffer.length st.system_buffer.length =
            st.system_buffer.length := Nat.min_eq_right (Nat.le_of_lt hlt)
        have hd : 0 < (st.mic_buffer.drop
            (min st.mic_buffer.length st.system_buffer.length)).length := by
          simp only [List.length_drop, hmin]
          omega
        simp [hmix, hm', hs', hd, hmin, hlt, List.append_assoc]
        exact zipWith_take_left _ _ _
      · have hmin : min st.mic_buffer.length st.system_buffer.length =
            st.mic_buffer.length := Nat.min_eq_left hge
        have hd : ¬ 0 < (st.mic_buffer.drop
            (min st.mic_buffer.length st.system_buffer.length)).length := by
          simp only [List.length_drop, hmin]
          omega
        have hdrop : st.mic_buffer.drop st.system_buffer.length = [] :=
          List.drop_eq_nil_of_le hge
        simp [hmix, hm', hs', hd, hzip, hdrop]
        omega

/-- A residual-flush input with the claim's shape: the microphone queue
longer than the system queue. -/
def residualFlushExample : AudioRecorder :=
  { AudioRecorder.init with is_recording := true,
                            mic_buffer := [1, 2, 3],
                            system_buffer := [10, 20] }

/-- Witness for the amended C1: the mixed common prefix comes first,
then the leftover microphone-only samples, in that order. -/
theorem stop_recording_residual_flush_witness :
    (residualFlushExample.stop_recording).1 = [11, 22, 3] := by
  have h := stop_recording_residual_flush residualFlushExample rfl rfl
  rw [h]
  simp [residualFlushExample, AudioRecorder.init]
  norm_num

lemma start_recording_waveform (env : AudioEnv) (st : AudioRecorder)
    (mic sys : Option ℕ) (mix : Bool) (st1 : AudioRecorder)
    (h : AudioRecorder.start_recording env st mic sys mix = .ok st1) :
    st1.waveform_buffer = st.waveform_buffer ∨ st1.waveform_buffer = [] := by
  unfold AudioRecorder.start_recording at h
  split at h
  · left
    obtain rfl : st = st1 := Except.ok.inj h
    rfl
  · split at h
    · exact absurd h (by simp)
    · split at h
      · exact absurd h (by simp)
      · split at h
        · split at h
          · split at h
            · exact absurd h (by simp)
            · split at h
              · exact absurd h (by simp)
              · right
                rw [← Except.ok.inj h]
                simp [AudioRecorder.clear_for_start]
          · split at h
            · exact absurd h (by simp)
            · right
              rw [← Except.ok.inj h]
              simp [AudioRecorder.clear_for_start]
        · split at h
          · exact absurd h (by simp)
          · right
            rw [← Except.ok.inj h]
            simp [AudioRecorder.clear_for_start]

lemma applyOp_waveform_le (st : AudioRecorder) (op : RecorderOp)
    (h : st.waveform_buffer.length ≤ WAVEFORM_MAXLEN) :
    (applyOp st op).waveform_buffer.length ≤ WAVEFORM_MAXLEN := by
  cases op with
  | micData d =>
    simp only [applyOp]
    split
    · unfold AudioRecorder.mic_callback
      split
      · exact h
      · simpa [dequePush_length] using Nat.min_le_right _ _
    · exact h
  | systemData d =>
    simp only [applyOp]
    split
    · exact h
    · exact h
  | mixStep =>
    show (st.mix_audio_thread_step).waveform_buffer.length ≤ WAVEFORM_MAXLEN
    unfold AudioRecorder.mix_audio_thread_step
    split
    · simpa [dequePush_length] using Nat.min_le_right _ _
    · exact h
  | start env mic sys mix =>
    simp only [applyOp]
    split
    · rename_i st1 heq
      rcases start_recording_waveform env st mic sys mix st1 heq with h1 | h1 <;>
        rw [h1]
      · exact h
      · simp
    · simp [AudioRecorder.clear_for_start]
  | stop =>
    show ((st.stop_recording).2).waveform_buffer.length ≤ WAVEFORM_MAXLEN
    unfold AudioRecorder.stop_recording
    split
    · exact h
    · simp

lemma foldl_waveform_le (ops : List RecorderOp) :
    ∀ st : AudioRecorder, st.waveform_buffer.length ≤ WAVEFORM_MAXLEN →
      (ops.foldl applyOp st).waveform_buffer.length ≤ WAVEFORM_MAXLEN := by
  induction ops with
  | nil => exact fun st h => h
  | cons op rest ih =>
    intro st h
    exact ih (applyOp st op) (applyOp_waveform_le st op h)

/-- C9: after any sequence of recording operations the waveform window
holds at most its fixed capacity of 200 entries; a push below capacity
appends on the right preserving insertion order, and a push at capacity
evicts the oldest (leftmost) entry first. -/
theorem waveform_window_bounded :
    (∀ ops : List RecorderOp,
      (runOps ops).waveform_buffer.length ≤ WAVEFORM_MAXLEN) ∧
    (∀ (l : List ℚ) (x : ℚ), l.length < WAVEFORM_MAXLEN →
      dequePush WAVEFORM_MAXLEN l x = l ++ [x]) ∧
    (∀ (l : List ℚ) (x : ℚ), l.length = WAVEFORM_MAXLEN →
      dequePush WAVEFORM_MAXLEN l x = l.drop 1 ++ [x]) := by
  refine ⟨?_, ?_, ?_⟩
  · intro ops
    exact foldl_waveform_le ops AudioRecorder.init (by simp [AudioRecorder.init])
  · intro l x h
    unfold dequePush
    rw [Nat.sub_eq_zero_of_le (by omega), List.drop_zero]
  · intro l x h
    unfold dequePush
    rw [h]
    have h1 : WAVEFORM_MAXLEN + 1 - WAVEFORM_MAXLEN = 1 := by omega
    rw [h1]
    rcases l with _ | ⟨a, t⟩
    · simp [WAVEFORM_MAXLEN] at h
    · simp

/-- Witness for C9: a concrete run, a push below capacity, and a push
at capacity. -/
theorem waveform_window_bounded_witness :
    (runOps [RecorderOp.micData [1]]).waveform_buffer.length ≤
      WAVEFORM_MAXLEN ∧
    dequePush WAVEFORM_MAXLEN (List.replicate 199 0) 5 =
      List.replicate 199 (0 : ℚ) ++ [5] ∧
    dequePush WAVEFORM_MAXLEN (List.replicate 200 0) 5 =
      (List.replicate 200 (0 : ℚ)).drop 1 ++ [5] :=
  ⟨waveform_window_bounded.1 [RecorderOp.micData [1]],
   waveform_window_bounded.2.1 _ 5 (by rw [List.length_replicate]; decide),
   waveform_window_bounded.2.2 _ 5 (by rw [List.length_replicate]; decide)⟩

/-! ## Claims about the voice-activity detector -/

/-- A detector with no model loaded. -/
def noModelVAD : SileroVAD Unit :=
  { zeroState := (), session := none, state := none }

/-- C10: calling the per-frame classifier with no model loaded raises a
`RuntimeError` instead of returning a decision, while
`find_speech_boundaries` guards the same situation with the
pass-through result `(0, len(buffer))`. -/
theorem is_speech_requires_model {σ : Type} (v : SileroVAD σ)
    (chunk buffer : List ℚ) (padding_ms : ℕ) (h : v.session = none) :
    v.is_speech chunk =
      .error "VAD model not loaded. Call load_vad_model() first." ∧
    v.find_speech_boundaries buffer padding_ms =
      .ok (0, buffer.length) := by
  constructor
  · simp [SileroVAD.is_speech, h]
  · simp [SileroVAD.find_speech_boundaries, h]

/-- Witness for C10 on a concrete modelless detector. -/
theorem is_speech_requires_model_witness :
    noModelVAD.is_speech [1] =
      .error "VAD model not loaded. Call load_vad_model() first." ∧
    noModelVAD.find_speech_boundaries [1, 2] 3 = .ok (0, 2) := by
  have h := is_speech_requires_model noModelVAD [1] [1, 2] 3 rfl
  exact ⟨h.1, by simpa using h.2⟩

/-- C7: when the internal inference call fails on a frame, the
classifier returns `true` (treats the frame as speech) instead of
raising, and a stream pass over any buffer still completes without
error. -/
theorem is_speech_fails_open {σ : Type} (v : SileroVAD σ) (m : VadModel σ)
    (chunk : List ℚ) (h : v.session = some m)
    (hfail : m.run (v.ensure_state.state.getD v.ensure_state.zeroState)
        (SileroVAD.padTrunc chunk) = .error ()) :
    v.is_speech chunk = .ok (true, v.ensure_state) ∧
    ∀ buffer : List ℚ, ∃ r v1, v.process_stream buffer = .ok (r, v1) := by
  constructor
  · simp [SileroVAD.is_speech, h, hfail]
  · intro buffer
    obtain ⟨r, v1, hr, _⟩ := SileroVAD.process_chunks_ok m
      (SileroVAD.chunks512 buffer) v.reset_states
      (by rw [SileroVAD.reset_states_session]; exact h)
    exact ⟨r, v1, hr⟩

/-- A detector whose every inference call fails. -/
def failingVAD : SileroVAD Unit :=
  { zeroState := (), session := some ⟨fun _ _ => .error ()⟩,
    state := some () }

/-- Witness for C7 on a concrete always-failing detector. -/
theorem is_speech_fails_open_witness :
    failingVAD.is_speech [1, 2] = .ok (true, failingVAD.ensure_state) ∧
    ∃ r v1, failingVAD.process_stream [5] = .ok (r, v1) := by
  have h := is_speech_fails_open failingVAD ⟨fun _ _ => .error ()⟩ [1, 2]
    rfl rfl
  exact ⟨h.1, h.2 [5]⟩

/-- C6: the boolean sequence produced by a stream pass is a function of
the loaded model and the zero state only — the pass resets the hidden
state before classifying, so two runs over the same buffer (whatever
hidden state each run starts from) yield identical sequences. -/
theorem process_stream_deterministic {σ : Type} (v1 v2 : SileroVAD σ)
    (buffer : List ℚ) (hsess : v1.session = v2.session)
    (hzero : v1.zeroState = v2.zeroState) :
    Except.map Prod.fst (v1.process_stream buffer) =
      Except.map Prod.fst (v2.process_stream buffer) := by
  rcases v1 with ⟨z1, s1, st1⟩
  rcases v2 with ⟨z2, s2, st2⟩
  simp only [SileroVAD.mk.injEq] at hsess hzero
  subst hsess
  subst hzero
  cases s1 with
  | some m =>
    have hr : SileroVAD.reset_states ⟨z1, some m, st1⟩ =
        SileroVAD.reset_states ⟨z1, some m, st2⟩ := by
      simp [SileroVAD.reset_states]
    unfold SileroVAD.process_stream
    rw [hr]
  | none =>
    unfold SileroVAD.process_stream
    rw [show SileroVAD.reset_states ⟨z1, none, st1⟩ = ⟨z1, none, st1⟩ from rfl,
        show SileroVAD.reset_states ⟨z1, none, st2⟩ = ⟨z1, none, st2⟩ from rfl,
        SileroVAD.process_chunks_none _ _ rfl,
        SileroVAD.process_chunks_none _ _ rfl]
    split <;> rfl

/-- A detector whose model always reports speech, with no hidden state
set. -/
def detVADa : SileroVAD Unit :=
  { zeroState := (), session := some ⟨fun s _ => .ok (1, s)⟩, state := none }

/-- The same detector mid-stream, with a hidden state set. -/
def detVADb : SileroVAD Unit :=
  { zeroState := (), session := some ⟨fun s _ => .ok (1, s)⟩,
    state := some () }

/-- Witness for C6: the two runs agree on a concrete buffer. -/
theorem process_stream_deterministic_witness :
    Except.map Prod.fst (detVADa.process_stream [1, 2]) =
      Except.map Prod.fst (detVADb.process_stream [1, 2]) :=
  process_stream_deterministic detVADa detVADb [1, 2] rfl rfl

/-- C4: `find_speech_boundaries` returns the pass-through result
`(0, len(buffer))` and raises no error whenever the detector has no
usable model, or the buffer is empty, or no frame of the classification
pass is classified as speech. -/
theorem find_speech_boundaries_passthrough {σ : Type} (v : SileroVAD σ)
    (buffer : List ℚ) (padding_ms : ℕ)
    (h : v.session = none ∨ buffer = [] ∨
      ∃ r v1, v.process_stream buffer = .ok (r, v1) ∧ r.any id = false) :
    v.find_speech_boundaries buffer padding_ms =
      .ok (0, buffer.length) := by
  rcases hsess : v.session with _ | m
  · simp [SileroVAD.find_speech_boundaries, hsess]
  · rcases h with h | h | ⟨r, v1, hps, hall⟩
    · rw [hsess] at h
      exact absurd h (by simp)
    · subst h
      simp [SileroVAD.find_speech_boundaries, hsess]
    · by_cases hb : buffer.length = 0
      · obtain rfl : buffer = [] := List.length_eq_zero.mp hb
        simp [SileroVAD.find_speech_boundaries, hsess]
      · have hscan : SileroVAD.first_last_scan 0 none r = none := by
          apply SileroVAD.first_last_scan_all_false
          intro b hbmem
          simpa using List.any_eq_false.mp hall b hbmem
        by_cases hre : r.isEmpty <;>
          simp [SileroVAD.find_speech_boundaries, hsess, hb, hps, hscan, hre]

/-- Witness for C4 on a modelless detector and non-empty buffer. -/
theorem find_speech_boundaries_passthrough_witness :
    noModelVAD.find_speech_boundaries [3, 4, 5] 0 = .ok (0, 3) := by
  have h := find_speech_boundaries_passthrough noModelVAD [3, 4, 5] 0
    (Or.inl rfl)
  simpa using h

/-- C3: for every buffer and padding, `find_speech_boundaries` returns
a pair `(start, end)` with `0 ≤ start ≤ end ≤ len(buffer)` — in
particular a padding large enough to exceed the buffer never produces
`start < 0` or `end > len(buffer)`. -/
theorem find_speech_boundaries_bounds {σ : Type} (v : SileroVAD σ)
    (buffer : List ℚ) (padding_ms : ℕ) :
    ∃ s e : ℤ, v.find_speech_boundaries buffer padding_ms = .ok (s, e) ∧
      0 ≤ s ∧ s ≤ e ∧ e ≤ (buffer.length : ℤ) := by
  rcases hsess : v.session with _ | m
  · refine ⟨0, buffer.length, ?_, by omega, by omega, by omega⟩
    simp [SileroVAD.find_speech_boundaries, hsess]
  · by_cases hb : buffer.length = 0
    · refine ⟨0, 0, ?_, by omega, by omega, by omega⟩
      simp [SileroVAD.find_speech_boundaries, hsess, hb]
    · obtain ⟨r, v1, hps, _⟩ := SileroVAD.process_chunks_ok m
        (SileroVAD.chunks512 buffer) v.reset_states
        (by rw [SileroVAD.reset_states_session]; exact hsess)
      have hps1 : v.process_stream buffer = .ok (r, v1) := hps
      have hlen : r.length = (SileroVAD.chunks512 buffer).length :=
        SileroVAD.process_chunks_length (SileroVAD.chunks512 buffer)
          v.reset_states r v1
          (SileroVAD.chunks512_ne_nil buffer.length buffer le_rfl) hps
      by_cases hre : r.isEmpty
      · refine ⟨0, buffer.length, ?_, by omega, by omega, by omega⟩
        simp [SileroVAD.find_speech_boundaries, hsess, hb, hps1, hre]
      · rcases hscan : SileroVAD.first_last_scan 0 none r with _ | ⟨fi, li⟩
        · refine ⟨0, buffer.length, ?_, by omega, by omega, by omega⟩
          simp [SileroVAD.find_speech_boundaries, hsess, hb, hps1, hre, hscan]
        · have hfl := SileroVAD.first_last_scan_bounds r 0 none
            (by intro f l hfl; exact absurd hfl (by simp)) fi li hscan
          have hidx : li * CHUNK_SIZE < buffer.length :=
            SileroVAD.chunks512_index_lt li buffer (by omega)
          have hfi : (fi : ℤ) ≤ (li : ℤ) := by exact_mod_cast hfl.1
          have hidx' : (li : ℤ) * 512 < (buffer.length : ℤ) := by
            have := hidx
            simp only [CHUNK_SIZE] at this
            exact_mod_cast this
          refine ⟨max 0 ((fi : ℤ) * CHUNK_SIZE - padding_ms * 16),
            min (buffer.length : ℤ) (((li : ℤ) + 1) * CHUNK_SIZE +
              padding_ms * 16), ?_, ?_, ?_, ?_⟩
          · simp [SileroVAD.find_speech_boundaries, hsess, hb, hps1, hre,
              hscan]
          · exact le_max_left 0 _
          · simp only [CHUNK_SIZE]
            have hp : (0 : ℤ) ≤ (padding_ms : ℤ) * 16 := by positivity
            omega
          · exact min_le_left _ _

end LocalFlow
